import Mathlib

/-!
Verification of the content-acquisition pipeline of the ai-Answer repository:
string utilities, truncation, chart-data detection, rate-limiting middleware,
the Redis-backed content cache, the hierarchical crawler and the per-format
extractors.  Each TypeScript function is shallowly embedded as an executable
Lean definition; external effects (HTTP fetch, the JS regex engine, JSON
serialisation, the csv-parse library) appear as explicit oracle arguments.
JavaScript strings are modelled as Lean strings; the whitespace classes and
Unicode case conversion of the JS runtime are modelled by their ASCII cores,
which is exact on every input the theorems and witnesses use.
-/

/-- Whitespace test modelling the common core of the JS `\s` class and the
characters removed by `String.prototype.trim`. -/
def isWS (c : Char) : Bool :=
  c = ' ' ∨ c = '\t' ∨ c = '\n' ∨ c = '\r'

/-- Model of `String.prototype.trim`: drop whitespace from both ends. -/
def trimStr (s : String) : String :=
  String.mk (((s.toList.dropWhile isWS).reverse.dropWhile isWS).reverse)

/-- Split a character list at every occurrence of a character from `delims`,
the semantics of `String.prototype.split` with a single-character-class
regular expression (or a single-character separator when `delims` is a
singleton). -/
def splitCharsAux (delims : List Char) : List Char → List (List Char)
  | [] => [[]]
  | c :: rest =>
    match splitCharsAux delims rest with
    | [] => [[]]
    | h :: t => if c ∈ delims then [] :: h :: t else (c :: h) :: t

/-- Split a string on any of the given delimiter characters. -/
def splitOnChars (delims : List Char) (s : String) : List String :=
  (splitCharsAux delims s.toList).map String.mk

/-- Boolean prefix test on character lists. -/
def isPrefixB : List Char → List Char → Bool
  | [], _ => true
  | _ :: _, [] => false
  | a :: as, b :: bs => if a = b then isPrefixB as bs else false

/-- Helper for the substring test: does `n` occur in the haystack? -/
def substrAux (n : List Char) : List Char → Bool
  | [] => isPrefixB n []
  | c :: t => isPrefixB n (c :: t) || substrAux n t

/-- Substring occurrence test, modelling `String.prototype.includes`. -/
def substrB (needle hay : String) : Bool :=
  substrAux needle.toList hay.toList

/-- Model of `String.prototype.toLowerCase` (ASCII core). -/
def lowerStr (s : String) : String :=
  String.mk (s.toList.map Char.toLower)

/-- Decimal digits to a natural number, most significant first. -/
def digitsToNat (l : List Char) : Nat :=
  l.foldl (fun a c => a * 10 + (c.toNat - 48)) 0

/-- Parse an unsigned decimal literal (integer part, optional fractional
part) from the front of a character list, returning its digit strings and
the unconsumed rest.  Fails when no digit is present, as JS numeric
parsing does on such inputs.  Exponent, hexadecimal and Infinity forms of
the JS runtime are outside the fragment modelled; no theorem or witness
below depends on them. -/
def parseDecPrefix (cs : List Char) : Option ((List Char × List Char) × List Char) :=
  let ip := cs.takeWhile Char.isDigit
  let r1 := cs.dropWhile Char.isDigit
  match r1 with
  | '.' :: r2 =>
    let fp := r2.takeWhile Char.isDigit
    let r3 := r2.dropWhile Char.isDigit
    if ip.isEmpty ∧ fp.isEmpty then none else some ((ip, fp), r3)
  | _ =>
    if ip.isEmpty then none else some ((ip, []), r1)

/-- The rational value of a signed decimal literal with integer digits
`ip` and fraction digits `fp`. -/
def decValue (neg : Bool) (ip fp : List Char) : ℚ :=
  let k := fp.length
  let n : Int := (digitsToNat ip * 10 ^ k + digitsToNat fp : Nat)
  mkRat (if neg then -n else n) (10 ^ k)

/-- Consume an optional sign, returning whether it was negative and the
rest. -/
def parseSign : List Char → Bool × List Char
  | '-' :: r => (true, r)
  | '+' :: r => (false, r)
  | r => (false, r)

/-- Model of JS `Number(string)` restricted to decimal forms: leading and
trailing whitespace is ignored, the empty string coerces to 0, and the
whole remainder must be a signed decimal literal. -/
def jsNumber (s : String) : Option ℚ :=
  let cs := (s.toList.dropWhile isWS).reverse.dropWhile isWS |>.reverse
  if cs.isEmpty then some 0
  else
    let (neg, r0) := parseSign cs
    match parseDecPrefix r0 with
    | some (d, []) => some (decValue neg d.1 d.2)
    | _ => none

/-- Model of JS `parseFloat(string)` restricted to decimal forms: leading
whitespace is skipped, a signed decimal prefix is parsed and any trailing
garbage is ignored; fails when no numeric prefix exists. -/
def jsParseFloat (s : String) : Option ℚ :=
  let cs := s.toList.dropWhile isWS
  let (neg, r0) := parseSign cs
  match parseDecPrefix r0 with
  | some (d, _) => some (decValue neg d.1 d.2)
  | none => none

/-- Model of `value.replace(/[,$%]/g, '')`: delete every comma, dollar sign
and percent sign. -/
def stripDecorations (s : String) : String :=
  String.mk (s.toList.filter (fun c => ¬(c = ',' ∨ c = '$' ∨ c = '%')))

/-- Model of `String.prototype.lastIndexOf` for a single character:
`-1` when absent, otherwise the largest index holding the character. -/
def lastIndexOfAux (c : Char) : List Char → Int → Int → Int
  | [], _, best => best
  | x :: xs, pos, best => lastIndexOfAux c xs (pos + 1) (if x = c then pos else best)

/-- Last index of `c` in `l`, `-1` when absent (JS `lastIndexOf`). -/
def lastIndexOf (c : Char) (l : List Char) : Int :=
  lastIndexOfAux c l 0 (-1)

/-- Embedding of `truncateText` from `src/lib/utils.ts`: return the text
unchanged when it fits, otherwise slice to `maxLength` and, when a period
occurs at a positive index of the slice, cut just after the last one. -/
def truncateText (text : String) (maxLength : Nat) : String :=
  if text.length ≤ maxLength then text
  else
    let truncated := text.toList.take maxLength
    let lastPeriod := lastIndexOf '.' truncated
    if 0 < lastPeriod then String.mk (truncated.take (lastPeriod.toNat + 1))
    else String.mk truncated

/-- Embedding of the extractor-local `truncateContent` from
`src/lib/extractors.ts`, whose fixed limit is `MAX_CONTENT_LENGTH = 8000`. -/
def truncateContent (text : String) : String :=
  if text.length ≤ 8000 then text
  else
    let truncated := text.toList.take 8000
    let lastPeriod := lastIndexOf '.' truncated
    if 0 < lastPeriod then String.mk (truncated.take (lastPeriod.toNat + 1))
    else String.mk truncated

/-! ## Chart-data detection

The repository contains four variants of `detectChartableData`:
in `src/lib/extractors.ts` (delimiter selection, `Number` coercion,
threshold of 3 non-blank lines, at least 2 kept rows), in
`src/app/api/chat/route.ts` (delimiter selection, decoration stripping and
`parseFloat`, rows kept only when some cell coerced), in `src/lib/utils.ts`
(character-class split, threshold of 2 lines, every matching row kept) and
in `lib/visualizations.ts` (character-class split, threshold of 2 lines,
a numeric-column gate and a date-header heuristic for the chart kind).
Rows are association lists with the insertion-order/overwrite semantics of
JS object assignment. -/

/-- A cell of a detected chart row: either a coerced number or the raw
string, mirroring `isNaN(Number(cell)) ? cell : Number(cell)`. -/
inductive Cell where
  | num (q : ℚ)
  | str (s : String)
deriving DecidableEq, Repr

/-- A chart row: a JS object as an insertion-ordered association list. -/
abbrev RowR := List (String × Cell)

/-- Chart kind, `'bar'` or `'line'`. -/
inductive ChartType where
  | bar
  | line
deriving DecidableEq, Repr

/-- The chart specification the detectors return. -/
structure ChartData where
  ctype : ChartType
  data : List RowR
deriving DecidableEq, Repr

/-- JS object assignment `row[k] = v`: overwrite in place when the key
exists, otherwise append the new pair. -/
def objInsert (row : RowR) (k : String) (v : Cell) : RowR :=
  if row.any (fun p => p.1 = k) then
    row.map (fun p => if p.1 = k then (k, v) else p)
  else row ++ [(k, v)]

/-- Split the text into trimmed non-blank lines, the common first step of
every detector (`split('\n').map(trim).filter(nonempty)`). -/
def nonBlankLines (content : String) : List String :=
  ((splitOnChars ['\n'] content).map trimStr).filter (fun l => l ≠ "")

/-- Delimiter selection of the extractors/route detectors: try comma, tab
and pipe against the header line and keep the first delimiter producing
strictly more columns than any earlier one, starting from a count of 0. -/
def bestDelimiter (header : String) : Char :=
  ([',', '\t', '|'].foldl
    (fun (best : Char × Nat) d =>
      let n := (splitOnChars [d] header).length
      if best.2 < n then (d, n) else best)
    (',', 0)).1

/-- Cell coercion of the extractors/utils/visualizations detectors:
`isNaN(Number(cell)) ? cell : Number(cell)`. -/
def coerceNumber (v : String) : Cell :=
  match jsNumber v with
  | some q => Cell.num q
  | none => Cell.str v

/-- Row construction of the extractors.ts detector: walk the header/value
pairs, skipping falsy (empty) headers, and assign the coerced value. -/
def buildRowE (headers values : List String) : RowR :=
  (headers.zip values).foldl
    (fun row p => if p.1 ≠ "" then objInsert row p.1 (coerceNumber p.2) else row) []

/-- Per-line processing of the extractors.ts detector: split on the chosen
delimiter, trim, require the column count to match the header, and keep
the row whenever the built object has at least one key. -/
def processLineE (d : Char) (headers : List String) (line : String) : Option RowR :=
  let values := (splitOnChars [d] line).map trimStr
  if values.length = headers.length then
    let row := buildRowE headers values
    if 0 < row.length then some row else none
  else none

/-- Embedding of `detectChartableData` from `src/lib/extractors.ts`. -/
def detectChartableDataE (content : String) : Option ChartData :=
  let lines := nonBlankLines content
  if lines.length < 3 then none
  else
    let d := bestDelimiter (lines.headD "")
    let headers := (splitOnChars [d] (lines.headD "")).map trimStr
    let data := (lines.drop 1).filterMap (processLineE d headers)
    if 2 ≤ data.length then
      some ⟨if 10 < data.length then ChartType.line else ChartType.bar, data⟩
    else none

/-- One `headers.forEach` iteration of the route.ts row construction:
strip `[,$%]` from the value, coerce with `parseFloat`, store the number
on success and the raw value otherwise, and record whether any cell has
coerced so far (`hasNumericValue`). -/
def buildRowRouteStep (acc : RowR × Bool) (p : String × String) : RowR × Bool :=
  match jsParseFloat (stripDecorations p.2) with
  | some q => (objInsert acc.1 p.1 (Cell.num q), true)
  | none => (objInsert acc.1 p.1 (Cell.str p.2), acc.2)

/-- Row construction of the route.ts detector. -/
def buildRowRoute (headers values : List String) : RowR × Bool :=
  (headers.zip values).foldl buildRowRouteStep ([], false)

/-- Per-line processing of the route.ts detector: a row is kept only when
its column count matches the header and at least one cell coerced. -/
def processLineRoute (d : Char) (headers : List String) (line : String) : Option RowR :=
  let values := (splitOnChars [d] line).map trimStr
  if values.length = headers.length then
    let rb := buildRowRoute headers values
    if rb.2 then some rb.1 else none
  else none

/-- Embedding of the local `detectChartableData` of
`src/app/api/chat/route.ts`. -/
def detectChartableDataRoute (content : String) : Option ChartData :=
  let lines := nonBlankLines content
  if lines.length < 3 then none
  else
    let d := bestDelimiter (lines.headD "")
    let headers := (splitOnChars [d] (lines.headD "")).map trimStr
    let data := (lines.drop 1).filterMap (processLineRoute d headers)
    if 2 ≤ data.length then
      some ⟨if 10 < data.length then ChartType.line else ChartType.bar, data⟩
    else none

/-- Row construction of the utils.ts detector: assign every header
(including empty ones), coercing with `Number`. -/
def buildRowU (headers values : List String) : RowR :=
  (headers.zip values).foldl
    (fun row p => objInsert row p.1 (coerceNumber p.2)) []

/-- Per-line processing of the utils.ts detector: any line whose column
count matches the header yields a kept row, unconditionally. -/
def processLineU (headers : List String) (line : String) : Option RowR :=
  let cells := (splitOnChars [',', '\t', '|'] line).map trimStr
  if cells.length = headers.length then some (buildRowU headers cells) else none

/-- Embedding of `detectChartableData` from `src/lib/utils.ts`: splits on
the character class, requires only 2 non-blank lines, keeps every
matching row and returns a chart whenever any row was kept. -/
def detectChartableDataU (content : String) : Option ChartData :=
  let lines := nonBlankLines content
  if lines.length < 2 then none
  else
    let headers := (splitOnChars [',', '\t', '|'] (lines.headD "")).map trimStr
    let data := (lines.drop 1).filterMap (processLineU headers)
    if data.length = 0 then none
    else some ⟨if 10 < data.length then ChartType.line else ChartType.bar, data⟩

/-- Row construction of the visualizations.ts detector: like the
extractors.ts one (falsy headers skipped, `Number` coercion). -/
def processLineViz (headers : List String) (line : String) : Option RowR :=
  let cells := (splitOnChars [',', '\t', '|'] line).map trimStr
  if cells.length = headers.length then
    let row := buildRowE headers cells
    if 0 < row.length then some row else none
  else none

/-- Lookup in a row object, modelling `row[header]`. -/
def rowLookup (row : RowR) (k : String) : Option Cell :=
  (row.find? (fun p => p.1 = k)).map Prod.snd

/-- Is `row[h]` a number (`typeof data[0][header] === 'number'`)? -/
def isNumericAt (row : RowR) (h : String) : Bool :=
  match rowLookup row h with
  | some (Cell.num _) => true
  | _ => false

/-- Does some header of the first non-blank line contain `date` after
lowercasing, the extra chart-kind heuristic of visualizations.ts? -/
def vizHasDateHeader (content : String) : Bool :=
  let headers := (splitOnChars [',', '\t', '|'] ((nonBlankLines content).headD "")).map trimStr
  headers.any (fun h => substrB "date" (lowerStr h))

/-- Embedding of `detectChartableData` from `lib/visualizations.ts`
(third document of `src/unnamed/part_003`): character-class split,
threshold of 2 lines, a gate requiring the first kept row to have a
numeric column, and kind `line` when the row count exceeds 10 or some
header contains `date`. -/
def detectChartableDataViz (content : String) : Option ChartData :=
  let lines := nonBlankLines content
  if lines.length < 2 then none
  else
    let headers := (splitOnChars [',', '\t', '|'] (lines.headD "")).map trimStr
    let data := (lines.drop 1).filterMap (processLineViz headers)
    if data.length = 0 then none
    else
      let numericColumns := headers.filter (fun h => isNumericAt (data.headD []) h)
      if numericColumns.length = 0 then none
      else
        some ⟨if 10 < data.length ∨ vizHasDateHeader content then ChartType.line
              else ChartType.bar, data⟩

/-! ## Rate-limiting middleware

Two middleware variants exist (`src/unnamed/part_002` and the first
document of `src/unnamed/part_003`), both fixed-window counters over the
Upstash Redis REST API with `RATE_LIMIT_REQUESTS = 50` and
`RATE_LIMIT_WINDOW = 3600`.  The Redis key `ratelimit:<ip>` is modelled as
the per-client record below; store-side TTL expiry makes a record whose
expiry has passed behave as absent.  `configured` models the presence of
the Redis environment variables and `redisFail` an unreachable store (a
thrown fetch or a non-2xx REST reply).  The `warnings` field collects the
`console.warn`/`console.error` diagnostics. -/

/-- The per-client Redis state: request count and window expiry time. -/
structure RateRecord where
  count : Nat
  expiresAt : Nat
deriving DecidableEq, Repr

/-- Outcome of the middleware for one request. -/
inductive MwDecision where
  /-- `NextResponse.next()` without rate-limit headers. -/
  | pass
  /-- `NextResponse.next()` carrying `X-RateLimit-Remaining`. -/
  | allow (remaining : Nat)
  /-- The 429 response with its `Retry-After` value in seconds. -/
  | deny (retryAfter : Nat)
deriving DecidableEq, Repr

/-- Middleware output: decision, new store state, diagnostics. -/
structure MwOut where
  decision : MwDecision
  state : Option RateRecord
  warnings : List String
deriving DecidableEq, Repr

/-- The record as the store presents it at time `now`: TTL expiry makes
an expired record indistinguishable from an absent key. -/
def liveRecord (now : Nat) (st : Option RateRecord) : Option RateRecord :=
  match st with
  | some r => if now < r.expiresAt then some r else none
  | none => none

/-- Embedding of `middleware` from `src/unnamed/part_003`: skip non-chat
paths, warn and pass when Redis is unconfigured, otherwise read the
counter (absent reads as 0), deny at 50 with `Retry-After: 3600`, else
increment and, on a first request, set the window expiry; any Redis error
is caught and the request passes with a diagnostic. -/
def middleware3 (isApiChat configured redisFail : Bool) (now : Nat)
    (st : Option RateRecord) : MwOut :=
  if ¬isApiChat then ⟨MwDecision.pass, st, []⟩
  else if ¬configured then
    ⟨MwDecision.pass, st, ["Rate limiting is disabled (Redis not configured)"]⟩
  else if redisFail then ⟨MwDecision.pass, st, ["Rate limiting error:"]⟩
  else
    match liveRecord now st with
    | none => ⟨MwDecision.allow (50 - 1), some ⟨1, now + 3600⟩, []⟩
    | some r =>
      if 50 ≤ r.count then ⟨MwDecision.deny 3600, st, []⟩
      else ⟨MwDecision.allow (50 - r.count - 1), some ⟨r.count + 1, r.expiresAt⟩, []⟩

/-- Embedding of `middleware` from `src/unnamed/part_002`.  Identical
fixed-window logic, but its `redisRequest` catches its own errors and
returns `null`, so with an unreachable store the read yields count 0 and
the request is admitted with headers while each of the three store calls
logs an error. -/
def middleware2 (isApiChat configured redisFail : Bool) (now : Nat)
    (st : Option RateRecord) : MwOut :=
  if ¬isApiChat then ⟨MwDecision.pass, st, []⟩
  else if ¬configured then
    ⟨MwDecision.pass, st, ["Rate limiting is disabled (Redis not configured)"]⟩
  else if redisFail then
    ⟨MwDecision.allow (50 - 1), st,
      ["Redis request error:", "Redis request error:", "Redis request error:"]⟩
  else
    match liveRecord now st with
    | none => ⟨MwDecision.allow (50 - 1), some ⟨1, now + 3600⟩, []⟩
    | some r =>
      if 50 ≤ r.count then ⟨MwDecision.deny 3600, st, []⟩
      else ⟨MwDecision.allow (50 - r.count - 1), some ⟨r.count + 1, r.expiresAt⟩, []⟩

/-- Run a sequence of `/api/chat` requests through the part_003 middleware
on a healthy, configured store, collecting the decisions. -/
def runRequests : List Nat → Option RateRecord → List MwDecision × Option RateRecord
  | [], st => ([], st)
  | t :: ts, st =>
    let out := middleware3 true true false t st
    let rest := runRequests ts out.state
    (out.decision :: rest.1, rest.2)

/-! ## Content cache

`src/app/api/chat/route.ts` (second document) guards a Redis client that
is `null` when unconfigured; `getCachedContent` treats a store error, an
absent key, a falsy (empty) stored string and a non-string reply as a
miss, parses stored JSON and falls back to wrapping the raw string;
`cacheContent` writes the serialised result with `CACHE_TTL = 86400`
seconds and swallows store errors.  JSON serialisation is external, so the
encoder/decoder pair is passed explicitly.  The store itself is the
associative list `CacheStore` with per-entry expiry; `src/lib/cache.ts`
contributes the thin `getCachedContentLib` variant. -/

/-- The `ContentResult` of `src/types`: extracted text plus optional
chart data. -/
structure ContentResult where
  content : String
  visualizationData : Option ChartData
deriving DecidableEq, Repr

/-- The shared key-value store: key, stored string, absolute expiry. -/
abbrev CacheStore := List (String × String × Nat)

/-- `SET key value EX ttl` at time `now`. -/
def redisSet (st : CacheStore) (k v : String) (ttl now : Nat) : CacheStore :=
  (k, v, now + ttl) :: st

/-- `GET key` at time `now`: the most recent write wins and an entry whose
expiry has passed reads as absent. -/
def redisGet (st : CacheStore) (k : String) (now : Nat) : Option String :=
  match st.find? (fun e => e.1 = k) with
  | some e => if now < e.2.2 then some e.2.1 else none
  | none => none

/-- The body of `getCachedContent` in route.ts given the outcome of
`redis.get` (`Except.error` models a thrown store error): errors and
falsy values are misses, stored JSON is decoded, and an undecodable
string is wrapped as bare content. -/
def getCachedContentCore (dec : String → Option ContentResult)
    (reply : Except Unit (Option String)) : Option ContentResult :=
  match reply with
  | Except.error _ => none
  | Except.ok none => none
  | Except.ok (some s) =>
    if s = "" then none
    else
      match dec s with
      | some r => some r
      | none => some ⟨s, none⟩

/-- `getCachedContent` against the time-indexed store model. -/
def getCachedContentAt (dec : String → Option ContentResult)
    (st : CacheStore) (url : String) (now : Nat) : Option ContentResult :=
  getCachedContentCore dec (Except.ok (redisGet st ("content:" ++ url) now))

/-- `cacheContent` against the time-indexed store model: serialise and
write with the 24-hour TTL. -/
def cacheContentAt (enc : ContentResult → String) (st : CacheStore)
    (url : String) (r : ContentResult) (now : Nat) : CacheStore :=
  redisSet st ("content:" ++ url) (enc r) 86400 now

/-- The `getCachedContent` of `src/lib/cache.ts`: returns the raw store
reply and downgrades a store error to `null`. -/
def getCachedContentLib (reply : Except Unit (Option String)) : Option String :=
  match reply with
  | Except.error _ => none
  | Except.ok v => v

/-! ## Pipeline orchestration (`extractContent` of route.ts)

The orchestrator checks the cache, dispatches on the file extension (last
`.`-separated segment, lowercased), truncates to `MAX_CONTENT_LENGTH =
4000`, attaches a visualization for `.csv` URLs by JSON-parsing the
truncated content (`processCSVData`, failure yielding none), writes the
result to the cache and returns it.  The per-format extractor outputs and
the two JSON functions are oracle inputs. -/

/-- Environment of one `extractContent` call: store configuration, the
outcome the store would give the read, whether the write would fail, the
strings the three extractors would produce for this URL, and the external
JSON parse/decode functions. -/
structure ExtractEnv where
  configured : Bool
  getReply : Except Unit (Option String)
  setFails : Bool
  pdfOut : String
  csvOut : String
  articleOut : String
  jsonRows : String → Option (List RowR)
  dec : String → Option ContentResult

/-- `url.split('.').pop()?.toLowerCase()`. -/
def fileTypeOf (url : String) : String :=
  lowerStr ((splitOnChars ['.'] url).getLastD "")

/-- `processCSVData`: parse the content as JSON rows into a line chart,
`none` on a parse error. -/
def processCSVData (jsonRows : String → Option (List RowR)) (content : String) :
    Option ChartData :=
  match jsonRows content with
  | some rows => some ⟨ChartType.line, rows⟩
  | none => none

/-- The recomputation path of `extractContent` (its `try` body up to the
cache write): dispatch on the file type, truncate to 4000, and attach the
CSV visualization when applicable. -/
def computeResult (env : ExtractEnv) (url : String) : ContentResult :=
  let ft := fileTypeOf url
  let content0 :=
    if ft = "pdf" then env.pdfOut
    else if ft = "csv" then env.csvOut
    else env.articleOut
  let content := truncateText content0 4000
  ⟨content, if ft = "csv" then processCSVData env.jsonRows content else none⟩

/-- The guarded cache write of route.ts: a no-op when the store is
unconfigured or the write errors (the error is caught). -/
def cacheContentGuarded (env : ExtractEnv) (enc : ContentResult → String)
    (url : String) (r : ContentResult) (now : Nat) (st : CacheStore) : CacheStore :=
  if ¬env.configured then st
  else if env.setFails then st
  else cacheContentAt enc st url r now

/-- Embedding of `extractContent` from route.ts: return the cached result
on a hit, otherwise recompute, write through the guarded cache and return
the fresh result together with the resulting store. -/
def extractContentR (env : ExtractEnv) (enc : ContentResult → String)
    (url : String) (now : Nat) (st : CacheStore) : ContentResult × CacheStore :=
  let cached :=
    if env.configured then getCachedContentCore env.dec env.getReply else none
  match cached with
  | some c => (c, st)
  | none =>
    let r := computeResult env url
    (r, cacheContentGuarded env enc url r now st)

/-! ## Hierarchical crawler (`crawlHierarchically` of extractors.ts)

The crawler recursively visits pages: a call returns immediately when the
depth exceeds `maxDepth`, the visited set has reached `maxPages` or the
URL was already visited; otherwise it marks the URL visited, fetches and
parses the page (any failure is caught, leaving only the visited mark),
records the page at the current depth and recurses into each discovered
link at `depth + 1`.  Fetching, HTML parsing and the allowlist/exclusion
filtering of links are external, so `fetch` is an oracle from URL to an
optional page; `fuel` bounds the recursion depth of the embedding and
every theorem holds for every fuel. -/

/-- A fetched and parsed page: body text and the discovered links, after
domain/extension filtering, in insertion order. -/
structure Page where
  content : String
  links : List String

/-- A crawler result (`CrawledContent`). -/
structure CrawledContent where
  url : String
  content : String
  links : List String
  depth : Nat
deriving DecidableEq, Repr

/-- The crawler configuration bounds. -/
structure CrawlerConfig where
  maxDepth : Nat
  maxPages : Nat

/-- The request-scoped crawler state: visited URLs (most recent first)
and accumulated results in completion order. -/
structure CrawlState where
  visited : List String
  results : List CrawledContent

/-- One recursive `crawl(url, depth)` call of `crawlHierarchically`. -/
def crawlStep (fetch : String → Option Page) (cfg : CrawlerConfig) :
    Nat → String → Nat → CrawlState → CrawlState
  | 0, _, _, s => s
  | fuel + 1, url, depth, s =>
    if cfg.maxDepth < depth ∨ cfg.maxPages ≤ s.visited.length ∨ url ∈ s.visited then s
    else
      match fetch url with
      | none => ⟨url :: s.visited, s.results⟩
      | some pg =>
        pg.links.foldl
          (fun t l => crawlStep fetch cfg fuel l (depth + 1) t)
          ⟨url :: s.visited, s.results ++ [⟨url, pg.content, pg.links, depth⟩]⟩

/-- `crawlHierarchically(startUrl, config)`: run the recursion from the
seed at depth 0 with empty state and return the results. -/
def crawlHierarchically (fetch : String → Option Page) (cfg : CrawlerConfig)
    (fuel : Nat) (startUrl : String) : List CrawledContent :=
  (crawlStep fetch cfg fuel startUrl 0 ⟨[], []⟩).results

/-! ## Format-specific extractors

Each extractor wraps its whole body in try/catch and returns a value on
every input; thrown fetch/parse errors surface as the `Except.error`
branch of the corresponding oracle, carrying the JS error message.  The
video extractor returns the parsed JSON object shape as a `ContentResult`;
the CSV extractor returns a string, as in the source.  Success-branch
template-literal indentation is elided and locale-dependent number/date
formatting is supplied by the oracle. -/

/-- JS `a || b` on strings: the empty string is falsy. -/
def jsOrStr (a b : String) : String :=
  if a = "" then b else a

/-- JS `a || b` where `a` may be undefined and falsy strings fall through. -/
def jsOrOpt (a b : Option String) : Option String :=
  match a with
  | some s => if s = "" then b else some s
  | none => b

/-- Association lookup in a parsed CSV record. -/
def lookupStr (rec : List (String × String)) (k : String) : Option String :=
  (rec.find? (fun p => p.1 = k)).map Prod.snd

/-- Video metadata as the success branch sees it: display strings are
already formatted (locale formatting is external) and the engagement
counters carry their `parseInt` values. -/
structure VideoStats where
  title : String
  channelTitle : String
  published : String
  duration : String
  views : String
  likes : String
  comments : String
  description : String
  tags : String
  viewsN : ℚ
  likesN : ℚ
  commentsN : ℚ

/-- Oracle of one `extractVideoContent` call: the regex video-id match,
whether `YOUTUBE_API_KEY` is set, and the API fetch/parse outcome. -/
structure VideoOracle where
  videoId : Option String
  apiKeyConfigured : Bool
  api : Except String VideoStats

/-- The failure content of the video extractor catch block.  Note that it
mentions only the error message, not the URL. -/
def videoFailureContent (e : String) : String :=
  "Failed to extract YouTube video content. Error: " ++ e

/-- The success content template of the video extractor. -/
def videoSuccessContent (v : VideoStats) : String :=
  "YouTube Video Details:\nTitle: " ++ v.title ++
  "\nChannel: " ++ v.channelTitle ++
  "\nPublished: " ++ v.published ++
  "\nDuration: " ++ v.duration ++
  "\nViews: " ++ v.views ++
  "\nLikes: " ++ v.likes ++
  "\nComments: " ++ v.comments ++
  "\nDescription: " ++ v.description ++ "..." ++
  "\n" ++ v.tags

/-- The engagement bar-chart rows of the video extractor. -/
def videoChartRows (v : VideoStats) : List RowR :=
  [[("metric", Cell.str "Views"), ("value", Cell.num v.viewsN),
    ("color", Cell.str "rgba(54, 162, 235, 0.6)")],
   [("metric", Cell.str "Likes"), ("value", Cell.num v.likesN),
    ("color", Cell.str "rgba(255, 99, 132, 0.6)")],
   [("metric", Cell.str "Comments"), ("value", Cell.num v.commentsN),
    ("color", Cell.str "rgba(75, 192, 192, 0.6)")]]

/-- Embedding of `extractVideoContent` from `src/lib/extractors.ts`:
an unextractable video id, a missing API key and any API failure all
produce the catch-block result with the thrown message. -/
def extractVideoContent (url : String) (o : VideoOracle) : ContentResult :=
  match o.videoId with
  | none => ⟨videoFailureContent "Invalid YouTube URL: Could not extract video ID", none⟩
  | some _ =>
    if ¬o.apiKeyConfigured then
      ⟨videoFailureContent "YouTube API key is not configured in environment variables", none⟩
    else
      match o.api with
      | Except.error e => ⟨videoFailureContent e, none⟩
      | Except.ok v => ⟨videoSuccessContent v, some ⟨ChartType.bar, videoChartRows v⟩⟩

/-- Count of ASCII letters, the `[a-zA-Z]` matches of `detectLanguage`. -/
def countLatin (s : String) : Nat :=
  (s.toList.filter Char.isAlpha).length

/-- Embedding of `detectLanguage`: English when the letter ratio exceeds
0.7.  The JS comparison is on doubles; the exact rational comparison
below agrees except on values within double rounding of 0.7, and at
length 0 the JS NaN comparison is false, as here. -/
def detectLanguage (text : String) : String :=
  if 7 * text.length < 10 * countLatin text then "English" else "Other"

/-- Collapse every whitespace run into a single space
(`replace(/\s+/g, ' ')`); the subsequent `replace(/\n+/g, ' ')` of the
source is the identity because no newline survives the first pass. -/
def squashWS : Bool → List Char → List Char
  | _, [] => []
  | prev, c :: cs =>
    if isWS c then
      if prev then squashWS true cs else ' ' :: squashWS true cs
    else c :: squashWS false cs

/-- Embedding of `cleanText`: collapse whitespace and trim. -/
def cleanText (s : String) : String :=
  trimStr (String.mk (squashWS false s.toList))

/-- The labelled sections `extractPdfSections` produces. -/
structure PdfSections where
  title : String
  authors : String
  abstract : String
  introduction : String
  methodology : String
  results : String
  conclusion : String
  keywords : List String
  keyFindings : List String

/-- Oracle of one `extractPDF` call: the fetch/decode outcome giving the
per-page text layers, and the section extraction, which is driven by the
JS regex engine and therefore external. -/
structure PdfOracle where
  fetched : Except String (List String)
  sections : String → PdfSections

/-- The `PDF Analysis` content template (lines 340-363 of extractors.ts),
with the falsy-string fallbacks of the template literal. -/
def pdfAnalysisContent (s : PdfSections) (language : String) : String :=
  "PDF Analysis:\n\nTitle: " ++ jsOrStr s.title "Not Found" ++
  "\nLanguage: " ++ language ++
  "\n\nAuthors: " ++ jsOrStr s.authors "Not Specified" ++
  "\n\nAbstract:\n" ++ jsOrStr (truncateText s.abstract 500) "No abstract available" ++
  "\n\nKey Keywords:\n" ++ jsOrStr (String.intercalate ", " s.keywords) "No keywords found" ++
  "\n\nKey Findings:\n" ++
  jsOrStr (String.intercalate "\n"
    (s.keyFindings.enum.map (fun p => toString (p.1 + 1) ++ ". " ++ p.2)))
    "No key findings extracted" ++
  "\n\nMethodology Summary:\n" ++
  jsOrStr (truncateText s.methodology 300) "Methodology details not clear" ++
  "\n\nConclusion:\n" ++
  jsOrStr (truncateText s.conclusion 300) "No specific conclusion extracted" ++ "\n"

/-- Embedding of `extractPDF`: on success, join the text of the first 10
pages with double newlines, clean it, detect the language, extract the
sections and render the analysis; any fetch or parse failure yields the
catch-block message, which names the URL. -/
def extractPDF (url : String) (o : PdfOracle) : ContentResult :=
  match o.fetched with
  | Except.error e =>
    ⟨"Failed to extract PDF content from: " ++ url ++ ". Error: " ++ e, none⟩
  | Except.ok pages =>
    let fullText := cleanText (String.join ((pages.take 10).map (· ++ "\n\n")))
    ⟨pdfAnalysisContent (o.sections fullText) (detectLanguage fullText), none⟩

/-- Oracle of one `extractCSV` call: the combined fetch/parse outcome
(`csv-parse` with `columns: true` yields uniform-keyed records), the
pretty-printed preview of the first 5 records and the final JSON encoder,
both external. -/
structure CsvOracle where
  records : Except String (List (List (String × String)))
  jsonPreview : String
  encode : String → Option ChartData → String

/-- One visualization data point of `extractCSV`: the label value, when
the label column is truthy, followed by the numeric columns coerced with
`Number` (numeric-column membership guarantees the coercion succeeds,
with the empty string coercing to 0). -/
def csvDataPoint (label : Option String) (numericColumns : List String)
    (rec : List (String × String)) : RowR :=
  let base : RowR :=
    match label with
    | some s => if s ≠ "" then [(s, Cell.str ((lookupStr rec s).getD ""))] else []
    | none => []
  numericColumns.foldl
    (fun row col => objInsert row col (Cell.num (((lookupStr rec col).bind jsNumber).getD 0)))
    base

/-- Embedding of `extractCSV`: empty parses report missing data, success
classifies columns as numeric (every value empty or `Number`-coercible),
picks the first non-numeric column as label with falsy fallback to the
first header, builds the chart (line when more than 2 numeric columns)
from the first 50 mapped records and encodes summary plus chart; any
fetch or parse failure yields the catch-block message naming the URL. -/
def extractCSV (url : String) (o : CsvOracle) : String :=
  match o.records with
  | Except.error e =>
    "Failed to extract CSV content from: " ++ url ++ ". Error: " ++ e
  | Except.ok records =>
    if records.length = 0 then "No data found in the CSV file."
    else
      let headers := (records.headD []).map Prod.fst
      let numericColumns := headers.filter (fun h =>
        records.all (fun rec =>
          match lookupStr rec h with
          | some v => v = "" ∨ (jsNumber v).isSome
          | none => false))
      let labelColumn :=
        jsOrOpt (headers.find? (fun h => ¬numericColumns.contains h)) headers.head?
      let viz : ChartData :=
        ⟨if 2 < numericColumns.length then ChartType.line else ChartType.bar,
         (records.map (csvDataPoint labelColumn numericColumns)).take 50⟩
      let content :=
        "CSV Data Analysis:\n- Total Records: " ++ toString records.length ++
        "\n- Columns: " ++ String.intercalate ", " headers ++
        "\n- Numeric Columns: " ++ jsOrStr (String.intercalate ", " numericColumns) "None" ++
        "\n- Label Column: " ++ (labelColumn.getD "undefined") ++
        "\n\nData Summary:\n" ++ o.jsonPreview ++ "\n"
      o.encode content (some viz)

/-- Oracle of one `extractArticle` call: whether `new URL(url)` succeeds
(its hostname configures the crawl allowlist), the crawler fetch oracle
and the recursion fuel. -/
structure ArticleOracle where
  validUrl : Bool
  fetch : String → Option Page
  fuel : Nat

/-- Render one crawled page of `extractArticle` (template-literal
indentation elided). -/
def renderCrawled (c : CrawledContent) : String :=
  "Source: " ++ c.url ++ "\n" ++ c.content ++
  (if c.links.length ≠ 0 then "\nRelated Links:\n" ++ String.intercalate "\n" c.links
   else "")

/-- Embedding of `extractArticle`: crawl from the URL with `maxDepth 1`
and `maxPages 5` and join the rendered pages; a failure (such as an
unparsable URL when building the crawl configuration) yields the
catch-block message naming the URL. -/
def extractArticle (url : String) (o : ArticleOracle) : String :=
  if ¬o.validUrl then "Failed to extract content from: " ++ url
  else
    String.intercalate "\n\n"
      ((crawlHierarchically o.fetch ⟨1, 5⟩ o.fuel url).map renderCrawled)

/-- Admission test on a middleware decision: everything except the 429. -/
def isAdmitted : MwDecision → Bool
  | MwDecision.deny _ => false
  | _ => true

/-- The crawler state invariant: result URLs are pairwise distinct, every
result URL has been marked visited, and the visited list is duplicate
free. -/
def StateInv (s : CrawlState) : Prop :=
  (s.results.map (fun r => r.url)).Nodup ∧ (∀ r ∈ s.results, r.url ∈ s.visited) ∧
  s.visited.Nodup

/-- The step properties every crawl call enjoys: visited only grows, the
results grow by pages whose URLs were unvisited and whose depths lie
between the call depth and `maxD`, the state invariant is preserved, the
result count stays below the visited count, and the visited count stays
below `maxP`. -/
def CrawlMono (g : String → CrawlState → CrawlState) (dmin maxD maxP : Nat) : Prop :=
  ∀ l s,
    (∃ v, (g l s).visited = v ++ s.visited) ∧
    (∃ t, (g l s).results = s.results ++ t ∧
      ∀ r ∈ t, r.url ∉ s.visited ∧ dmin ≤ r.depth ∧ r.depth ≤ maxD) ∧
    (StateInv s → StateInv (g l s)) ∧
    (s.results.length ≤ s.visited.length → (g l s).results.length ≤ (g l s).visited.length) ∧
    (s.visited.length ≤ maxP → (g l s).visited.length ≤ maxP)

/-- The link loop of a crawl call: fold the per-link recursion over the
discovered links. -/
def crawlList (g : String → CrawlState → CrawlState) (ls : List String)
    (s : CrawlState) : CrawlState :=
  ls.foldl (fun t l => g l t) s

/-- A concrete two-page site for the crawl witnesses: the seed links to
one further page. -/
def fetchW : String → Option Page := fun u =>
  if u = "https://a" then some ⟨"hi", ["https://b"]⟩
  else if u = "https://b" then some ⟨"bye", []⟩
  else none

/-! ## Theorems

Helper lemmas first, then one theorem per specification claim, each with
its witness or counterexample. -/

/-- A list is a Boolean prefix of itself followed by anything. -/
theorem isPrefixB_self_append (l rest : List Char) : isPrefixB l (l ++ rest) = true := by
  induction l with
  | nil => rfl
  | cons a as ih => simpa [isPrefixB] using ih

/-- The substring scan succeeds on any haystack with a matching suffix
position. -/
theorem substrAux_append (n pre rest : List Char) (h : isPrefixB n rest = true) :
    substrAux n (pre ++ rest) = true := by
  induction pre with
  | nil =>
    cases rest with
    | nil => simpa [substrAux] using h
    | cons c t => simp [substrAux, h]
  | cons p pre ih => simp [substrAux, ih]

/-- A string occurs in any surrounding concatenation. -/
theorem substrB_sandwich (u pre suf : String) : substrB u (pre ++ (u ++ suf)) = true := by
  show substrAux u.toList (pre ++ (u ++ suf)).data = true
  have hd : (pre ++ (u ++ suf)).data = pre.data ++ (u.data ++ suf.data) := by
    simp [String.data_append]
  rw [hd]
  exact substrAux_append _ _ _ (isPrefixB_self_append _ _)

/-- `truncateContent` is `truncateText` at the fixed limit 8000. -/
theorem truncateContent_eq (s : String) : truncateContent s = truncateText s 8000 := rfl

/-- The truncation always returns a character-level prefix. -/
theorem truncateText_front (s : String) (n : Nat) :
    (truncateText s n).toList <+: s.toList := by
  simp only [truncateText]
  split
  · exact List.prefix_refl _
  · split
    · exact (List.take_prefix _ _).trans (List.take_prefix _ _)
    · exact List.take_prefix _ _

/-- The truncation never exceeds the requested length. -/
theorem truncateText_length (s : String) (n : Nat) :
    (truncateText s n).length ≤ n := by
  simp only [truncateText]
  split
  · assumption
  · split
    · show ((s.toList.take n).take _).length ≤ n
      simp [List.length_take]
    · show (s.toList.take n).length ≤ n
      simp [List.length_take]

/-- Short enough input is returned unchanged. -/
theorem truncateText_of_le {s : String} {n : Nat} (h : s.length ≤ n) :
    truncateText s n = s := by
  simp only [truncateText]
  exact if_pos h

/-- C10: `truncateText(s, n)` returns a prefix of `s` of length at most
`n` and returns `s` itself whenever `s` already fits, and likewise for
the extractor-local `truncateContent` at its fixed limit 8000. -/
theorem claim10_truncate (s : String) (n : Nat) :
    (truncateText s n).toList <+: s.toList ∧ (truncateText s n).length ≤ n ∧
    (s.length ≤ n → truncateText s n = s) ∧
    (truncateContent s).toList <+: s.toList ∧ (truncateContent s).length ≤ 8000 ∧
    (s.length ≤ 8000 → truncateContent s = s) := by
  refine ⟨truncateText_front s n, truncateText_length s n, fun h => truncateText_of_le h,
    ?_, ?_, ?_⟩
  · rw [truncateContent_eq]; exact truncateText_front s 8000
  · rw [truncateContent_eq]; exact truncateText_length s 8000
  · intro h; rw [truncateContent_eq]; exact truncateText_of_le h

/-- C10 witness: the truncation claim evaluated at concrete inputs, with
the fits-unchanged hypothesis discharged at a short string. -/
theorem claim10_truncate_witness :
    (truncateText "ab.cd" 4).toList <+: "ab.cd".toList ∧ truncateText "ab" 4 = "ab" :=
  ⟨(claim10_truncate "ab.cd" 4).1, (claim10_truncate "ab" 4).2.2.1 (by decide)⟩

/-- C4: as stated the claim fails — only the extractors.ts and route.ts
detectors require 3 non-blank lines; the utils.ts and visualizations.ts
variants return none only below 2 non-blank lines.  This theorem proves
the amended claim: each detector returns none below its own threshold,
3 for extractors.ts/route.ts and 2 for utils.ts/visualizations.ts. -/
theorem claim4_min_lines :
    (∀ content, (nonBlankLines content).length < 3 → detectChartableDataE content = none) ∧
    (∀ content, (nonBlankLines content).length < 3 → detectChartableDataRoute content = none) ∧
    (∀ content, (nonBlankLines content).length < 2 → detectChartableDataU content = none) ∧
    (∀ content, (nonBlankLines content).length < 2 → detectChartableDataViz content = none) := by
  refine ⟨fun content h => ?_, fun content h => ?_, fun content h => ?_, fun content h => ?_⟩
  · simp [detectChartableDataE, h]
  · simp [detectChartableDataRoute, h]
  · simp [detectChartableDataU, h]
  · simp [detectChartableDataViz, h]

/-- C4 counterexample: the utils.ts `detectChartableData` returns a chart
for `a,b` over `1,2`, an input with exactly 2 non-blank lines, refuting
the claim that every chart detection needs at least 3. -/
theorem claim4_counterexample :
    (nonBlankLines "a,b\n1,2").length < 3 ∧
    detectChartableDataU "a,b\n1,2" =
      some ⟨ChartType.bar, [[("a", Cell.num 1), ("b", Cell.num 2)]]⟩ := by
  exact ⟨by decide, by decide⟩

/-- C4 witness: the amended theorem applied at concrete short inputs. -/
theorem claim4_min_lines_witness :
    detectChartableDataE "a,b\n1,2" = none ∧ detectChartableDataRoute "a,b\n1,2" = none ∧
    detectChartableDataU "a,b" = none ∧ detectChartableDataViz "a,b" = none :=
  ⟨claim4_min_lines.1 "a,b\n1,2" (by decide), claim4_min_lines.2.1 "a,b\n1,2" (by decide),
   claim4_min_lines.2.2.1 "a,b" (by decide), claim4_min_lines.2.2.2 "a,b" (by decide)⟩

/-- C6: as stated the claim fails on the visualizations.ts detector,
which also selects `line` when a header contains `date`.  This theorem
proves the amended claim: the extractors.ts detector returns `line`
exactly when more than 10 rows were kept, and the visualizations.ts
detector exactly when more than 10 rows were kept or some lowercased
header contains `date`. -/
theorem claim6_chart_kind :
    (∀ content c, detectChartableDataE content = some c →
      (c.ctype = ChartType.line ↔ 10 < c.data.length)) ∧
    (∀ content c, detectChartableDataViz content = some c →
      (c.ctype = ChartType.line ↔ (10 < c.data.length ∨ vizHasDateHeader content = true))) := by
  constructor
  · intro content c h
    simp only [detectChartableDataE] at h
    split at h
    · exact absurd h (by simp)
    · split at h
      · obtain rfl : _ = c := Option.some.inj h
        dsimp only
        split
        · simp_all
        · simp_all
      · exact absurd h (by simp)
  · intro content c h
    simp only [detectChartableDataViz] at h
    split at h
    · exact absurd h (by simp)
    · split at h
      · exact absurd h (by simp)
      · split at h
        · exact absurd h (by simp)
        · obtain rfl : _ = c := Option.some.inj h
          dsimp only
          split
          · simp_all
          · simp_all

/-- C6 counterexample: the visualizations.ts detector returns kind `line`
for a 2-row input whose header contains `date`, refuting the claim that
the kind is `line` exactly when more than 10 rows were kept. -/
theorem claim6_counterexample :
    detectChartableDataViz "date,value\n1,2\n3,4" =
      some ⟨ChartType.line, [[("date", Cell.num 1), ("value", Cell.num 2)],
                             [("date", Cell.num 3), ("value", Cell.num 4)]]⟩ ∧
    [[("date", Cell.num 1), ("value", Cell.num 2)],
     [("date", Cell.num 3), ("value", Cell.num 4)]].length ≤ 10 := by
  exact ⟨by decide, by decide⟩

/-- C6 witness: the amended kind equivalences applied at concrete
detections. -/
theorem claim6_chart_kind_witness :
    ((ChartType.bar : ChartType) = ChartType.line ↔
      10 < [[("a", Cell.num 1), ("b", Cell.num 2)],
            [("a", Cell.num 3), ("b", Cell.num 4)]].length) ∧
    ((ChartType.line : ChartType) = ChartType.line ↔
      (10 < [[("date", Cell.num 1), ("value", Cell.num 2)],
             [("date", Cell.num 3), ("value", Cell.num 4)]].length ∨
        vizHasDateHeader "date,value\n1,2\n3,4" = true)) :=
  ⟨claim6_chart_kind.1 "a,b\n1,2\n3,4"
      ⟨ChartType.bar, [[("a", Cell.num 1), ("b", Cell.num 2)],
                       [("a", Cell.num 3), ("b", Cell.num 4)]]⟩ (by decide),
   claim6_chart_kind.2 "date,value\n1,2\n3,4"
      ⟨ChartType.line, [[("date", Cell.num 1), ("value", Cell.num 2)],
                        [("date", Cell.num 3), ("value", Cell.num 4)]]⟩ (by decide)⟩

/-- The `hasNumericValue` flag of the route.ts row construction is true
after the fold exactly when it was already true or some processed value
coerces after stripping. -/
theorem buildRowRouteStep_foldl_flag (ps : List (String × String)) (acc : RowR × Bool) :
    ((ps.foldl buildRowRouteStep acc).2 = true) ↔
      (acc.2 = true ∨ ∃ p ∈ ps, (jsParseFloat (stripDecorations p.2)).isSome = true) := by
  induction ps generalizing acc with
  | nil => simp
  | cons p ps ih =>
    rw [List.foldl_cons, ih]
    cases hp : jsParseFloat (stripDecorations p.2) with
    | none => simp [buildRowRouteStep, hp]
    | some q => simp [buildRowRouteStep, hp]

/-- C5: as stated the claim fails on the extractors.ts detector, which
strips nothing and keeps every matching-width row with a nonempty header
even when no cell coerces.  This theorem proves the amended claim, about
the route.ts detector: a matching-width row records a successful coercion
exactly when some stripped cell parses, a row survives per-line
processing only with that flag set and with exactly the built object, and
every row of a detection arose from a remaining line by that per-line
processing. -/
theorem claim5_row_keeping :
    (∀ hs vs : List String, vs.length = hs.length →
      ((buildRowRoute hs vs).2 = true ↔
        ∃ v ∈ vs, (jsParseFloat (stripDecorations v)).isSome = true)) ∧
    (∀ d hs line row, processLineRoute d hs line = some row →
      (buildRowRoute hs ((splitOnChars [d] line).map trimStr)).2 = true ∧
      row = (buildRowRoute hs ((splitOnChars [d] line).map trimStr)).1) ∧
    (∀ content c, detectChartableDataRoute content = some c →
      ∀ row ∈ c.data, ∃ line ∈ (nonBlankLines content).drop 1,
        processLineRoute (bestDelimiter ((nonBlankLines content).headD ""))
          ((splitOnChars [bestDelimiter ((nonBlankLines content).headD "")]
            ((nonBlankLines content).headD "")).map trimStr) line = some row) := by
  refine ⟨fun hs vs hlen => ?_, fun d hs line row h => ?_, fun content c h => ?_⟩
  · rw [buildRowRoute, buildRowRouteStep_foldl_flag]
    have hsnd : (hs.zip vs).map Prod.snd = vs := List.map_snd_zip hs vs (le_of_eq hlen)
    constructor
    · rintro (hfalse | ⟨p, hp, hv⟩)
      · exact absurd hfalse (by simp)
      · exact ⟨p.2, by rw [← hsnd]; exact List.mem_map_of_mem Prod.snd hp, hv⟩
    · rintro ⟨v, hv, hcoerce⟩
      right
      rw [← hsnd] at hv
      obtain ⟨p, hp, rfl⟩ := List.mem_map.mp hv
      exact ⟨p, hp, hcoerce⟩
  · simp only [processLineRoute] at h
    split at h
    · split at h
      · exact ⟨by assumption, (Option.some.inj h).symm⟩
      · exact absurd h (by simp)
    · exact absurd h (by simp)
  · intro row hrow
    simp only [detectChartableDataRoute] at h
    split at h
    · exact absurd h (by simp)
    · split at h
      · obtain rfl : _ = c := Option.some.inj h
        simp only at hrow
        exact List.mem_filterMap.mp hrow
      · exact absurd h (by simp)

/-- C5 counterexample: the extractors.ts detector keeps rows exactly as
split — a currency-decorated cell is stored as the raw string `$1`
rather than stripped and coerced, and rows with no successfully coerced
cell at all are still kept. -/
theorem claim5_counterexample :
    detectChartableDataE "a,b\n$1,2\n$3,4" =
      some ⟨ChartType.bar, [[("a", Cell.str "$1"), ("b", Cell.num 2)],
                            [("a", Cell.str "$3"), ("b", Cell.num 4)]]⟩ ∧
    detectChartableDataE "a,b\nx,y\nz,w" =
      some ⟨ChartType.bar, [[("a", Cell.str "x"), ("b", Cell.str "y")],
                            [("a", Cell.str "z"), ("b", Cell.str "w")]]⟩ := by
  exact ⟨by decide, by decide⟩

/-- C5 witness: the amended row-keeping properties applied at concrete
inputs. -/
theorem claim5_row_keeping_witness :
    ((buildRowRoute ["a"] ["$1"]).2 = true ↔
      ∃ v ∈ ["$1"], (jsParseFloat (stripDecorations v)).isSome = true) ∧
    ((buildRowRoute ["a"] ((splitOnChars [','] "1").map trimStr)).2 = true ∧
      [("a", Cell.num 1)] = (buildRowRoute ["a"] ((splitOnChars [','] "1").map trimStr)).1) ∧
    (∃ line ∈ (nonBlankLines "a,b\n1,2\n3,4").drop 1,
      processLineRoute (bestDelimiter ((nonBlankLines "a,b\n1,2\n3,4").headD ""))
        ((splitOnChars [bestDelimiter ((nonBlankLines "a,b\n1,2\n3,4").headD "")]
          ((nonBlankLines "a,b\n1,2\n3,4").headD "")).map trimStr) line =
        some [("a", Cell.num 1), ("b", Cell.num 2)]) :=
  ⟨claim5_row_keeping.1 ["a"] ["$1"] rfl,
   claim5_row_keeping.2.1 ',' ["a"] "1" [("a", Cell.num 1)] (by decide),
   claim5_row_keeping.2.2 "a,b\n1,2\n3,4"
     ⟨ChartType.bar, [[("a", Cell.num 1), ("b", Cell.num 2)],
                      [("a", Cell.num 3), ("b", Cell.num 4)]]⟩ (by decide)
     [("a", Cell.num 1), ("b", Cell.num 2)] (by decide)⟩

/-- C7: a value cached for a URL with the 86400-second TTL is returned
unchanged by a lookup at any time before the TTL elapses — given that the
external JSON codec round-trips the value and serialises it to a
non-empty (truthy) string — and a lookup at or after the expiry treats
the key as absent. -/
theorem claim7_cache_ttl (enc : ContentResult → String) (dec : String → Option ContentResult)
    (st : CacheStore) (url : String) (v : ContentResult) (tw tr : Nat)
    (hdec : dec (enc v) = some v) (hne : enc v ≠ "") :
    (tr < tw + 86400 →
      getCachedContentAt dec (cacheContentAt enc st url v tw) url tr = some v) ∧
    (tw + 86400 ≤ tr →
      getCachedContentAt dec (cacheContentAt enc st url v tw) url tr = none) := by
  constructor
  · intro hlt
    simp [getCachedContentAt, cacheContentAt, redisSet, redisGet, List.find?,
      getCachedContentCore, hlt, hne, hdec]
  · intro hge
    simp [getCachedContentAt, cacheContentAt, redisSet, redisGet, List.find?,
      getCachedContentCore, show ¬tr < tw + 86400 by omega]

/-- C7 witness: the TTL round-trip at a concrete codec, value and pair of
lookup times. -/
theorem claim7_cache_ttl_witness :
    (getCachedContentAt (fun s => some ⟨s, none⟩)
      (cacheContentAt (fun r => r.content) [] "u" ⟨"hello", none⟩ 0) "u" 100 =
        some ⟨"hello", none⟩) ∧
    (getCachedContentAt (fun s => some ⟨s, none⟩)
      (cacheContentAt (fun r => r.content) [] "u" ⟨"hello", none⟩ 0) "u" 86400 = none) :=
  ⟨(claim7_cache_ttl (fun r => r.content) (fun s => some ⟨s, none⟩) [] "u" ⟨"hello", none⟩
      0 100 rfl (by decide)).1 (by decide),
   (claim7_cache_ttl (fun r => r.content) (fun s => some ⟨s, none⟩) [] "u" ⟨"hello", none⟩
      0 86400 rfl (by decide)).2 (by decide)⟩

/-- C8: a store error on a cache read behaves as a miss in both the
route.ts and cache.ts read helpers, a failing (or unconfigured) cache
write leaves the store untouched, and an `extractContent` call whose
cache read errors still returns exactly the recomputed extraction
result — no request fails because the cache is unavailable. -/
theorem claim8_cache_fail_open :
    (∀ dec : String → Option ContentResult,
      getCachedContentCore dec (Except.error ()) = none) ∧
    (getCachedContentLib (Except.error ()) = none) ∧
    (∀ (env : ExtractEnv) (enc : ContentResult → String) (url : String) (r : ContentResult)
        (now : Nat) (st : CacheStore), env.setFails = true →
      cacheContentGuarded env enc url r now st = st) ∧
    (∀ (env : ExtractEnv) (enc : ContentResult → String) (url : String) (now : Nat)
        (st : CacheStore), env.getReply = Except.error () →
      (extractContentR env enc url now st).1 = computeResult env url) := by
  refine ⟨fun dec => rfl, rfl, fun env enc url r now st h => ?_, fun env enc url now st h => ?_⟩
  · simp [cacheContentGuarded, h]
  · simp only [extractContentR, h]
    cases hc : env.configured <;> simp [getCachedContentCore]

/-- C8 witness: the fail-open cache behaviour at a concrete environment
whose read errors and whose write fails. -/
theorem claim8_cache_fail_open_witness :
    (getCachedContentCore (fun _ => none) (Except.error ()) = none) ∧
    (cacheContentGuarded
        ⟨true, Except.error (), true, "p", "c", "a", fun _ => none, fun _ => none⟩
        (fun r => r.content) "u" ⟨"x", none⟩ 0 [] = []) ∧
    ((extractContentR
        ⟨true, Except.error (), true, "p", "c", "a", fun _ => none, fun _ => none⟩
        (fun r => r.content) "u" 0 []).1 =
      computeResult ⟨true, Except.error (), true, "p", "c", "a", fun _ => none, fun _ => none⟩
        "u") :=
  ⟨claim8_cache_fail_open.1 (fun _ => none),
   claim8_cache_fail_open.2.2.1
     ⟨true, Except.error (), true, "p", "c", "a", fun _ => none, fun _ => none⟩
     (fun r => r.content) "u" ⟨"x", none⟩ 0 [] rfl,
   claim8_cache_fail_open.2.2.2
     ⟨true, Except.error (), true, "p", "c", "a", fun _ => none, fun _ => none⟩
     (fun r => r.content) "u" 0 [] rfl⟩

/-- C9: when the shared store is unconfigured or unreachable, both
middleware variants fail open — every request is admitted, for every
client state, and every gated (`/api/chat`) request produces a
diagnostic. -/
theorem claim9_fail_open (isApiChat configured redisFail : Bool) (now : Nat)
    (st : Option RateRecord) (h : configured = false ∨ redisFail = true) :
    isAdmitted (middleware3 isApiChat configured redisFail now st).decision = true ∧
    isAdmitted (middleware2 isApiChat configured redisFail now st).decision = true ∧
    (isApiChat = true →
      (middleware3 isApiChat configured redisFail now st).warnings ≠ [] ∧
      (middleware2 isApiChat configured redisFail now st).warnings ≠ []) := by
  cases isApiChat <;> cases configured <;> cases redisFail <;>
    simp_all [middleware3, middleware2, isAdmitted]

/-- C9 witness: fail-open behaviour of both middlewares for a gated
request against an unreachable store with a live counter present. -/
theorem claim9_fail_open_witness :
    isAdmitted (middleware3 true true true 0 (some ⟨7, 100⟩)).decision = true ∧
    isAdmitted (middleware2 true true true 0 (some ⟨7, 100⟩)).decision = true ∧
    (true = true →
      (middleware3 true true true 0 (some ⟨7, 100⟩)).warnings ≠ [] ∧
      (middleware2 true true true 0 (some ⟨7, 100⟩)).warnings ≠ []) :=
  claim9_fail_open true true true 0 (some ⟨7, 100⟩) (Or.inr rfl)

/-- Splitting the first element off a `range`-indexed map. -/
theorem range_map_succ_shift (n : Nat) (f : Nat → MwDecision) :
    (List.range (n + 1)).map f = f 0 :: (List.range n).map (fun i => f (i + 1)) := by
  rw [List.range_succ_eq_map, List.map_cons, List.map_map]
  rfl

theorem middleware3_allow_step (t k e : Nat) (ht : t < e) (hk : ¬50 ≤ k) :
    middleware3 true true false t (some ⟨k, e⟩) =
      ⟨MwDecision.allow (50 - k - 1), some ⟨k + 1, e⟩, []⟩ := by
  simp [middleware3, liveRecord, ht, hk]

theorem runRequests_allow (ts : List Nat) (k e : Nat) (hk : 1 ≤ k)
    (hle : k + ts.length ≤ 50) (hts : ∀ t ∈ ts, t < e) :
    runRequests ts (some ⟨k, e⟩) =
      ((List.range ts.length).map (fun i => MwDecision.allow (50 - (k + i) - 1)),
       some ⟨k + ts.length, e⟩) := by
  induction ts generalizing k with
  | nil => simp [runRequests]
  | cons t ts ih =>
    have ht : t < e := hts t (by simp)
    have hk49 : ¬50 ≤ k := by simp at hle; omega
    have hrest := ih (k + 1) (by omega) (by simp at hle ⊢; omega)
      (fun t ht => hts t (by simp [ht]))
    simp only [runRequests, middleware3_allow_step t k e ht hk49]
    rw [hrest]
    simp only [List.length_cons]
    refine Prod.ext ?_ ?_
    · rw [range_map_succ_shift]
      simp only [Nat.add_zero]
      refine congrArg₂ List.cons rfl ?_
      refine List.map_congr_left fun i _ => ?_
      have h1 : k + 1 + i = k + (i + 1) := by omega
      rw [h1]
    · have h2 : k + 1 + ts.length = k + (ts.length + 1) := by omega
      rw [h2]

/-- `runRequests` distributes over list append. -/
theorem runRequests_append (xs ys : List Nat) (st : Option RateRecord) :
    runRequests (xs ++ ys) st =
      ((runRequests xs st).1 ++ (runRequests ys (runRequests xs st).2).1,
       (runRequests ys (runRequests xs st).2).2) := by
  induction xs generalizing st with
  | nil => simp [runRequests]
  | cons x xs ih => simp [runRequests, ih]

/-- C3: from an empty window, 51 requests of one client inside the fixed
3600-second window are decided as exactly 50 admissions with descending
remainders followed by one denial carrying the positive `Retry-After`
3600, leaving the counter at 50; and a request arriving at or after the
stored expiry is admitted again with a fresh count of 1 and a new window. -/
theorem claim3_rate_window (t0 : Nat) (mid : List Nat) (tlast : Nat)
    (hmidlen : mid.length = 49) (hmid : ∀ t ∈ mid, t < t0 + 3600)
    (hlast : tlast < t0 + 3600) :
    runRequests (t0 :: (mid ++ [tlast])) none =
      ((List.range 50).map (fun i => MwDecision.allow (50 - i - 1)) ++ [MwDecision.deny 3600],
       some ⟨50, t0 + 3600⟩) ∧
    (0 : Nat) < 3600 ∧
    (∀ (r : RateRecord) (now : Nat), r.expiresAt ≤ now →
      middleware3 true true false now (some r) =
        ⟨MwDecision.allow 49, some ⟨1, now + 3600⟩, []⟩) := by
  refine ⟨?_, by omega, fun r now hr => ?_⟩
  · have h0 : middleware3 true true false t0 none =
        ⟨MwDecision.allow 49, some ⟨1, t0 + 3600⟩, []⟩ := by
      simp [middleware3, liveRecord]
    have hmidrun := runRequests_allow mid 1 (t0 + 3600) (by omega) (by omega) hmid
    have hdeny : runRequests [tlast] (some ⟨50, t0 + 3600⟩) =
        ([MwDecision.deny 3600], some ⟨50, t0 + 3600⟩) := by
      simp [runRequests, middleware3, liveRecord, hlast]
    simp only [runRequests, h0]
    rw [runRequests_append, hmidrun]
    simp only [hmidlen]
    rw [hdeny]
    have hlist : MwDecision.allow 49 ::
        ((List.range 49).map (fun i => MwDecision.allow (50 - (1 + i) - 1)) ++
          [MwDecision.deny 3600]) =
        (List.range 50).map (fun i => MwDecision.allow (50 - i - 1)) ++
          [MwDecision.deny 3600] := by decide
    exact congrArg₂ Prod.mk hlist rfl
  · simp [middleware3, liveRecord, show ¬now < r.expiresAt by omega]

/-- C3 witness: the window theorem at 51 concrete request times, plus the
fresh-window restart at an expired record. -/
theorem claim3_rate_window_witness :
    runRequests (0 :: (List.replicate 49 0 ++ [0])) none =
      ((List.range 50).map (fun i => MwDecision.allow (50 - i - 1)) ++ [MwDecision.deny 3600],
       some ⟨50, 0 + 3600⟩) ∧
    middleware3 true true false 5000 (some ⟨50, 3600⟩) =
      ⟨MwDecision.allow 49, some ⟨1, 5000 + 3600⟩, []⟩ :=
  ⟨(claim3_rate_window 0 (List.replicate 49 0) 0 (by decide)
      (by intro t ht; simp [List.eq_of_mem_replicate ht]) (by decide)).1,
   (claim3_rate_window 0 (List.replicate 49 0) 0 (by decide)
      (by intro t ht; simp [List.eq_of_mem_replicate ht]) (by decide)).2.2
      ⟨50, 3600⟩ 5000 (by decide)⟩

/-- Folding a step with the crawl properties over any link list keeps the
crawl properties. -/
theorem crawlList_mono {g : String → CrawlState → CrawlState} {dmin maxD maxP : Nat}
    (hg : CrawlMono g dmin maxD maxP) (ls : List String) :
    CrawlMono (fun _ s => crawlList g ls s) dmin maxD maxP := by
  induction ls with
  | nil =>
    intro l s
    exact ⟨⟨[], rfl⟩, ⟨[], by simp [crawlList], by simp⟩, fun h => h, fun h => h, fun h => h⟩
  | cons a ls ih =>
    intro l s
    obtain ⟨⟨v1, hv1⟩, ⟨t1, ht1, ht1p⟩, hinv1, hlen1, hcap1⟩ := hg a s
    obtain ⟨⟨v2, hv2⟩, ⟨t2, ht2, ht2p⟩, hinv2, hlen2, hcap2⟩ := ih l (g a s)
    have hv2' : (crawlList g ls (g a s)).visited = v2 ++ (g a s).visited := hv2
    have ht2' : (crawlList g ls (g a s)).results = (g a s).results ++ t2 := ht2
    refine ⟨⟨v2 ++ v1, ?_⟩, ⟨t1 ++ t2, ?_, ?_⟩,
      fun h => hinv2 (hinv1 h), fun h => hlen2 (hlen1 h), fun h => hcap2 (hcap1 h)⟩
    · show (crawlList g ls (g a s)).visited = (v2 ++ v1) ++ s.visited
      rw [hv2', hv1, List.append_assoc]
    · show (crawlList g ls (g a s)).results = s.results ++ (t1 ++ t2)
      rw [ht2', ht1, List.append_assoc]
    · intro r hr
      rcases List.mem_append.mp hr with hr1 | hr2
      · exact ht1p r hr1
      · obtain ⟨hnv, hdep, hD⟩ := ht2p r hr2
        refine ⟨fun hmem => hnv ?_, hdep, hD⟩
        rw [hv1]
        exact List.mem_append_right _ hmem

/-- Every `crawlStep` call, at any fuel, enjoys the crawl properties at
its call depth. -/
theorem crawlStep_mono (fetch : String → Option Page) (cfg : CrawlerConfig) :
    ∀ fuel depth : Nat,
      CrawlMono (fun l s => crawlStep fetch cfg fuel l depth s) depth cfg.maxDepth
        cfg.maxPages := by
  intro fuel
  induction fuel with
  | zero =>
    intro depth l s
    exact ⟨⟨[], rfl⟩, ⟨[], by simp [crawlStep], by simp⟩, fun h => h, fun h => h, fun h => h⟩
  | succ fuel ih =>
    intro depth l s
    beta_reduce
    by_cases hguard : cfg.maxDepth < depth ∨ cfg.maxPages ≤ s.visited.length ∨ l ∈ s.visited
    · have heq : crawlStep fetch cfg (fuel + 1) l depth s = s := by
        simp only [crawlStep, if_pos hguard]
      refine ⟨⟨[], by rw [heq]; rfl⟩, ⟨[], by rw [heq]; simp, by simp⟩,
        fun h => by rw [heq]; exact h, fun h => by rw [heq]; exact h,
        fun h => by rw [heq]; exact h⟩
    · have hd : ¬cfg.maxDepth < depth := fun h => hguard (Or.inl h)
      have hp : ¬cfg.maxPages ≤ s.visited.length := fun h => hguard (Or.inr (Or.inl h))
      have hv : l ∉ s.visited := fun h => hguard (Or.inr (Or.inr h))
      cases hf : fetch l with
      | none =>
        have heq : crawlStep fetch cfg (fuel + 1) l depth s =
            ⟨l :: s.visited, s.results⟩ := by
          simp only [crawlStep, if_neg hguard, hf]
        refine ⟨⟨[l], by rw [heq]; rfl⟩, ⟨[], by rw [heq]; simp, by simp⟩, ?_, ?_, ?_⟩
        · rintro ⟨hn, hsub, hvn⟩
          rw [heq]
          exact ⟨hn, fun r hr => List.mem_cons_of_mem _ (hsub r hr), hvn.cons hv⟩
        · intro h
          rw [heq]
          simp only [List.length_cons]
          omega
        · intro h
          rw [heq]
          simp only [List.length_cons]
          omega
      | some pg =>
        have heq : crawlStep fetch cfg (fuel + 1) l depth s =
            crawlList (fun l' s' => crawlStep fetch cfg fuel l' (depth + 1) s') pg.links
              ⟨l :: s.visited, s.results ++ [⟨l, pg.content, pg.links, depth⟩]⟩ := by
          simp only [crawlStep, if_neg hguard, hf]
          rfl
        obtain ⟨⟨v2, hv2⟩, ⟨t2, ht2, ht2p⟩, hinv2, hlen2, hcap2⟩ :=
          crawlList_mono (ih (depth + 1)) pg.links l
            ⟨l :: s.visited, s.results ++ [⟨l, pg.content, pg.links, depth⟩]⟩
        have hv2' : (crawlList (fun l' s' => crawlStep fetch cfg fuel l' (depth + 1) s')
            pg.links ⟨l :: s.visited, s.results ++ [⟨l, pg.content, pg.links, depth⟩]⟩).visited
              = v2 ++ (l :: s.visited) := hv2
        have ht2' : (crawlList (fun l' s' => crawlStep fetch cfg fuel l' (depth + 1) s')
            pg.links ⟨l :: s.visited, s.results ++ [⟨l, pg.content, pg.links, depth⟩]⟩).results
              = (s.results ++ [⟨l, pg.content, pg.links, depth⟩]) ++ t2 := ht2
        refine ⟨⟨v2 ++ [l], ?_⟩, ⟨⟨l, pg.content, pg.links, depth⟩ :: t2, ?_, ?_⟩,
          ?_, ?_, ?_⟩
        · rw [heq, hv2', List.append_assoc]
          rfl
        · rw [heq, ht2', List.append_assoc]
          rfl
        · intro r hr
          rcases List.mem_cons.mp hr with hr0 | hr2
          · subst hr0
            exact ⟨hv, Nat.le_refl _, show depth ≤ cfg.maxDepth by omega⟩
          · obtain ⟨hnv, hdep, hD⟩ := ht2p r hr2
            exact ⟨fun hmem => hnv (List.mem_cons_of_mem _ hmem), by omega, hD⟩
        · rintro ⟨hn, hsub, hvn⟩
          rw [heq]
          refine hinv2 ⟨?_, ?_, hvn.cons hv⟩
          · simp only [List.map_append, List.map_cons, List.map_nil]
            rw [List.nodup_append]
            refine ⟨hn, List.nodup_singleton _, ?_⟩
            intro u hu hu1
            simp only [List.mem_singleton] at hu1
            subst hu1
            obtain ⟨r, hr, hru⟩ := List.mem_map.mp hu
            exact hv (hru ▸ hsub r hr)
          · intro r hr
            rcases List.mem_append.mp hr with hr1 | hr0
            · exact List.mem_cons_of_mem _ (hsub r hr1)
            · simp only [List.mem_singleton] at hr0
              subst hr0
              exact List.mem_cons_self _ _
        · intro h
          rw [heq]
          refine hlen2 ?_
          simp only [List.length_append, List.length_cons]
          simp only [List.length_nil]
          omega
        · intro h
          rw [heq]
          refine hcap2 ?_
          simp only [List.length_cons]
          omega

/-- C1: every crawl is bounded and duplicate free — the result count
never exceeds `maxPages`, no URL appears twice among the results, every
result depth is at most `maxDepth`, and the seed URL is only ever crawled
at depth 0. -/
theorem claim1_crawler_bounds (fetch : String → Option Page) (cfg : CrawlerConfig)
    (fuel : Nat) (startUrl : String) :
    (crawlHierarchically fetch cfg fuel startUrl).length ≤ cfg.maxPages ∧
    ((crawlHierarchically fetch cfg fuel startUrl).map (fun r => r.url)).Nodup ∧
    (∀ r ∈ crawlHierarchically fetch cfg fuel startUrl, r.depth ≤ cfg.maxDepth) ∧
    (∀ r ∈ crawlHierarchically fetch cfg fuel startUrl, r.url = startUrl → r.depth = 0) := by
  obtain ⟨⟨v, hv⟩, ⟨t, ht, htp⟩, hinv, hlen, hcap⟩ :=
    crawlStep_mono fetch cfg fuel 0 startUrl ⟨[], []⟩
  have ht' : (crawlStep fetch cfg fuel startUrl 0 ⟨[], []⟩).results = [] ++ t := ht
  have hinv' : StateInv (⟨[], []⟩ : CrawlState) →
      StateInv (crawlStep fetch cfg fuel startUrl 0 ⟨[], []⟩) := hinv
  have hlen' : (([] : List CrawledContent).length ≤ ([] : List String).length) →
      (crawlStep fetch cfg fuel startUrl 0 ⟨[], []⟩).results.length ≤
        (crawlStep fetch cfg fuel startUrl 0 ⟨[], []⟩).visited.length := hlen
  have hcap' : (([] : List String).length ≤ cfg.maxPages) →
      (crawlStep fetch cfg fuel startUrl 0 ⟨[], []⟩).visited.length ≤ cfg.maxPages := hcap
  have hS : StateInv (crawlStep fetch cfg fuel startUrl 0 ⟨[], []⟩) :=
    hinv' ⟨List.nodup_nil, by simp, List.nodup_nil⟩
  refine ⟨le_trans (hlen' (by simp)) (hcap' (by simp)), hS.1, ?_, ?_⟩
  · intro r hr
    have hr' : r ∈ [] ++ t := by rw [← ht']; exact hr
    exact (htp r (by simpa using hr')).2.2
  · intro r hr hurl
    cases fuel with
    | zero => exact absurd hr (by simp [crawlHierarchically, crawlStep])
    | succ fuel =>
      by_cases hpz : cfg.maxPages ≤ 0
      · have hempty : crawlHierarchically fetch cfg (fuel + 1) startUrl = [] := by
          simp [crawlHierarchically, crawlStep, hpz]
        rw [hempty] at hr
        cases hr
      · have hgf : ¬(cfg.maxDepth < 0 ∨
            cfg.maxPages ≤ (⟨[], []⟩ : CrawlState).visited.length ∨
            startUrl ∈ (⟨[], []⟩ : CrawlState).visited) := by
          simp [hpz]
        cases hf : fetch startUrl with
        | none =>
          have hempty : crawlHierarchically fetch cfg (fuel + 1) startUrl = [] := by
            simp only [crawlHierarchically, crawlStep, if_neg hgf, hf]
          rw [hempty] at hr
          cases hr
        | some pg =>
          have heq : crawlHierarchically fetch cfg (fuel + 1) startUrl =
              (crawlList (fun l' s' => crawlStep fetch cfg fuel l' 1 s') pg.links
                ⟨[startUrl], [⟨startUrl, pg.content, pg.links, 0⟩]⟩).results := by
            simp only [crawlHierarchically, crawlStep, if_neg hgf, hf]
            rfl
          obtain ⟨_, ⟨t2, ht2, ht2p⟩, _, _, _⟩ :=
            crawlList_mono (crawlStep_mono fetch cfg fuel 1) pg.links startUrl
              ⟨[startUrl], [⟨startUrl, pg.content, pg.links, 0⟩]⟩
          have ht2' : (crawlList (fun l' s' => crawlStep fetch cfg fuel l' 1 s') pg.links
              ⟨[startUrl], [⟨startUrl, pg.content, pg.links, 0⟩]⟩).results =
                [⟨startUrl, pg.content, pg.links, 0⟩] ++ t2 := ht2
          rw [heq, ht2'] at hr
          rcases List.mem_append.mp hr with h0 | h2
          · rw [List.mem_singleton] at h0
            rw [h0]
          · obtain ⟨hnv, _, _⟩ := ht2p r h2
            exact absurd (show r.url ∈ [startUrl] from List.mem_singleton.mpr hurl) hnv

/-- C1 witness: the crawl bounds applied to a concrete two-page site with
`maxDepth 1`, `maxPages 5` — the second page is known to sit at depth 1
and the seed result at depth 0. -/
theorem claim1_crawler_bounds_witness :
    (crawlHierarchically fetchW ⟨1, 5⟩ 4 "https://a").length ≤ 5 ∧
    (⟨"https://b", "bye", [], 1⟩ : CrawledContent).depth ≤ 1 ∧
    (⟨"https://a", "hi", ["https://b"], 0⟩ : CrawledContent).depth = 0 :=
  ⟨(claim1_crawler_bounds fetchW ⟨1, 5⟩ 4 "https://a").1,
   (claim1_crawler_bounds fetchW ⟨1, 5⟩ 4 "https://a").2.2.1
     ⟨"https://b", "bye", [], 1⟩ (by decide),
   (claim1_crawler_bounds fetchW ⟨1, 5⟩ 4 "https://a").2.2.2
     ⟨"https://a", "hi", ["https://b"], 0⟩ (by decide) rfl⟩

/-- A string occurs in a concatenation that ends with it. -/
theorem substrB_sandwich_end (u pre : String) : substrB u (pre ++ u) = true := by
  have h := substrB_sandwich u pre ""
  rwa [show u ++ "" = u from String.ext (by simp [String.data_append])] at h

/-- C2: as stated the claim fails twice — the video extractor does return
a result on every input and never throws, but its failure content names
only the error and not the URL, and the article extractor swallows fetch
failures inside the crawl, returning the empty string (not a failure
message) when the seed of a valid URL is unreachable.  This theorem
proves the amended claim: the PDF and CSV extractors return, on every
fetch or parse failure, exactly the catch-block message, which contains
the URL; the article extractor does so only on its own catch path (an
unparsable URL), while an unreachable seed yields the empty string; and
each failure path of the video extractor returns the catch-block message
built from the error text alone. -/
theorem claim2_failure_messages :
    (∀ (url e : String) (sections : String → PdfSections),
      (extractPDF url ⟨Except.error e, sections⟩).content =
        "Failed to extract PDF content from: " ++ url ++ ". Error: " ++ e ∧
      substrB url (extractPDF url ⟨Except.error e, sections⟩).content = true) ∧
    (∀ (url e preview : String) (encf : String → Option ChartData → String),
      extractCSV url ⟨Except.error e, preview, encf⟩ =
        "Failed to extract CSV content from: " ++ url ++ ". Error: " ++ e ∧
      substrB url (extractCSV url ⟨Except.error e, preview, encf⟩) = true) ∧
    (∀ (url : String) (fetch : String → Option Page) (fuel : Nat),
      extractArticle url ⟨false, fetch, fuel⟩ = "Failed to extract content from: " ++ url ∧
      substrB url (extractArticle url ⟨false, fetch, fuel⟩) = true) ∧
    (∀ (url : String) (fetch : String → Option Page) (fuel : Nat), fetch url = none →
      extractArticle url ⟨true, fetch, fuel⟩ = "") ∧
    (∀ (url : String) (k : Bool) (api : Except String VideoStats),
      (extractVideoContent url ⟨none, k, api⟩).content =
        videoFailureContent "Invalid YouTube URL: Could not extract video ID") ∧
    (∀ (url vid : String) (api : Except String VideoStats),
      (extractVideoContent url ⟨some vid, false, api⟩).content =
        videoFailureContent "YouTube API key is not configured in environment variables") ∧
    (∀ (url vid e : String),
      (extractVideoContent url ⟨some vid, true, Except.error e⟩).content =
        videoFailureContent e) := by
  refine ⟨fun url e sections => ⟨rfl, ?_⟩, fun url e preview encf => ⟨rfl, ?_⟩,
    fun url fetch fuel => ⟨rfl, ?_⟩, fun url fetch fuel hf => ?_,
    fun url k api => rfl, fun url vid api => rfl, fun url vid e => rfl⟩
  · show substrB url ("Failed to extract PDF content from: " ++ url ++ ". Error: " ++ e) = true
    rw [String.append_assoc, String.append_assoc]
    exact substrB_sandwich url _ _
  · show substrB url ("Failed to extract CSV content from: " ++ url ++ ". Error: " ++ e) = true
    rw [String.append_assoc, String.append_assoc]
    exact substrB_sandwich url _ _
  · show substrB url ("Failed to extract content from: " ++ url) = true
    exact substrB_sandwich_end url _
  · cases fuel with
    | zero => rfl
    | succ fuel =>
      simp only [extractArticle, crawlHierarchically, crawlStep, hf]
      rfl

/-- C2 counterexample: a failing video fetch yields a result whose content
does not contain the requested URL, and an article extraction whose valid
seed URL is unreachable yields the empty string — neither is a failure
message referencing the URL, refuting the claim. -/
theorem claim2_counterexample :
    substrB "https://youtu.be/dQw4w9WgXcQ"
      (extractVideoContent "https://youtu.be/dQw4w9WgXcQ"
        ⟨some "dQw4w9WgXcQ", true, Except.error "Unknown error"⟩).content = false ∧
    extractArticle "https://unreachable.test" ⟨true, fun _ => none, 4⟩ = "" ∧
    substrB "https://unreachable.test"
      (extractArticle "https://unreachable.test" ⟨true, fun _ => none, 4⟩) = false :=
  ⟨by decide, by decide, by decide⟩

/-- C2 witness: the failure-message forms applied at concrete URLs,
errors and oracles. -/
theorem claim2_failure_messages_witness :
    ((extractPDF "http://x.test/a.pdf"
        ⟨Except.error "boom", fun _ => ⟨"", "", "", "", "", "", "", [], []⟩⟩).content =
      "Failed to extract PDF content from: " ++ "http://x.test/a.pdf" ++
        ". Error: " ++ "boom" ∧
      substrB "http://x.test/a.pdf" (extractPDF "http://x.test/a.pdf"
        ⟨Except.error "boom", fun _ => ⟨"", "", "", "", "", "", "", [], []⟩⟩).content = true) ∧
    (extractCSV "http://x.test/a.csv"
        ⟨Except.error "boom", "", fun c _ => c⟩ =
      "Failed to extract CSV content from: " ++ "http://x.test/a.csv" ++
        ". Error: " ++ "boom" ∧
      substrB "http://x.test/a.csv"
        (extractCSV "http://x.test/a.csv" ⟨Except.error "boom", "", fun c _ => c⟩) = true) ∧
    (extractArticle "not a url" ⟨false, fetchW, 3⟩ =
      "Failed to extract content from: " ++ "not a url" ∧
      substrB "not a url" (extractArticle "not a url" ⟨false, fetchW, 3⟩) = true) ∧
    (extractArticle "https://down.test" ⟨true, fun _ => none, 3⟩ = "") ∧
    ((extractVideoContent "https://youtu.be/x" ⟨some "x", true, Except.error "boom"⟩).content =
      videoFailureContent "boom") :=
  ⟨claim2_failure_messages.1 "http://x.test/a.pdf" "boom"
      (fun _ => ⟨"", "", "", "", "", "", "", [], []⟩),
   claim2_failure_messages.2.1 "http://x.test/a.csv" "boom" "" (fun c _ => c),
   claim2_failure_messages.2.2.1 "not a url" fetchW 3,
   claim2_failure_messages.2.2.2.1 "https://down.test" (fun _ => none) 3 rfl,
   claim2_failure_messages.2.2.2.2.2.2 "https://youtu.be/x" "x" "boom"⟩
